import Mathlib

/-!
Shallow embedding of `src/teleop_twist_joy.cpp` (teleop_twist_joy):
the joystick-to-velocity-command core.  Axis values and scale factors are
modelled with `ℚ` (the C++ code uses `float`/`double`); button values with
`Int` (C++ `int32`).  Every raw vector index access in the C++ code is
modelled as a checked read returning `Option`: a `none` result corresponds
to an out-of-range `std::vector` access (undefined behaviour) in the C++.
-/

namespace TeleopTwistJoy

/-- One joystick sample (`sensor_msgs::msg::Joy`): axis values and button
values, index-addressed. -/
structure Joy where
  axes : List ℚ
  buttons : List Int
deriving DecidableEq, Repr

/-- The output command (`geometry_msgs::msg::Twist`): six fields. -/
structure Twist where
  linear_x : ℚ
  linear_y : ℚ
  linear_z : ℚ
  angular_x : ℚ
  angular_y : ℚ
  angular_z : ℚ
deriving DecidableEq, Repr

/-- The all-zero command (a default-constructed `Twist`). -/
def zeroTwist : Twist := ⟨0, 0, 0, 0, 0, 0⟩

/-- Mutable controller state of `TeleopTwistJoy::Impl` that evolves across
samples: `autorun_flag`, `autorun_buffer`, `speed_x_max`, `sent_disable_msg`. -/
structure CState where
  autorun_flag : Bool
  autorun_buffer : Int
  speed_x_max : ℚ
  sent_disable_msg : Bool
deriving DecidableEq, Repr

/-- Configuration of `TeleopTwistJoy::Impl`: the parameter-backed fields.
`std::map<std::string, ...>` fields are modelled as association lists. -/
structure Config where
  require_enable_button : Bool
  enable_button : Int
  enable_turbo_button : Int
  enable_autorun_button : Int
  axis_linear_map : List (String × Int)
  axis_angular_map : List (String × Int)
  axis_angular_adjustment_map : List (String × Int)
  scale_linear_normal : List (String × ℚ)
  scale_linear_turbo : List (String × ℚ)
  scale_linear_autorun : List (String × ℚ)
  scale_angular_normal : List (String × ℚ)
  scale_angular_turbo : List (String × ℚ)
  scale_angular_autorun : List (String × ℚ)
deriving DecidableEq, Repr

/-- `std::map::find` / `std::map::at` on an association list. -/
def mapFind {α : Type} (m : List (String × α)) (k : String) : Option α :=
  (m.find? (fun p => p.1 = k)).map (fun p => p.2)

/-- `std::map::operator[]` read on an inner scale map: a missing key yields a
value-initialized `double`, i.e. `0`. -/
def mapGetD (m : List (String × ℚ)) (k : String) : ℚ :=
  (mapFind m k).getD 0

/-- `scale_linear_map[which_map]`: the outer map holds the keys `normal`,
`turbo`, `autorun`; any other key would yield an empty inner map. -/
def scaleLinFor (cfg : Config) (which : String) : List (String × ℚ) :=
  if which = "normal" then cfg.scale_linear_normal
  else if which = "turbo" then cfg.scale_linear_turbo
  else if which = "autorun" then cfg.scale_linear_autorun
  else []

/-- `scale_angular_map[which_map]`. -/
def scaleAngFor (cfg : Config) (which : String) : List (String × ℚ) :=
  if which = "normal" then cfg.scale_angular_normal
  else if which = "turbo" then cfg.scale_angular_turbo
  else if which = "autorun" then cfg.scale_angular_autorun
  else []

/-- Checked read of `joy_msg->axes[i]`: `none` models an out-of-range
`std::vector` access. -/
def readAxis (joy : Joy) (i : Int) : Option ℚ :=
  if 0 ≤ i ∧ i < (joy.axes.length : Int) then some ((joy.axes.getD i.toNat 0)) else none

/-- Checked read of `joy_msg->buttons[i]`. -/
def readButton (joy : Joy) (i : Int) : Option Int :=
  if 0 ≤ i ∧ i < (joy.buttons.length : Int) then some ((joy.buttons.getD i.toNat 0)) else none

/-- `getVal` of the C++ source: looks `fieldname` up in the axis map and the
scale map, returns `0.0` when unmapped (`-1`), absent, or the axis index is
`>=` the sample's axis count, and otherwise reads
`joy_msg->axes[axis_map.at(fieldname)] * scale_map.at(fieldname)`.
A negative mapped index other than `-1` passes every guard in the source and
reaches the vector read: the checked read then yields `none`. -/
def getVal (joy : Joy) (axis_map : List (String × Int))
    (scale_map : List (String × ℚ)) (fieldname : String) : Option ℚ :=
  match mapFind axis_map fieldname with
  | none => some 0
  | some idx =>
    if idx = -1 then some 0
    else match mapFind scale_map fieldname with
      | none => some 0
      | some sc =>
        if (joy.axes.length : Int) ≤ idx then some 0
        else (readAxis joy idx).map (fun a => a * sc)

/-- The two sequential conditional assignments the source uses to bound a
value: first replace by `limit` when above it, then by `-limit` when below
that. -/
def clampUD (x limit : ℚ) : ℚ :=
  let a := if x > limit then limit else x
  if a < -limit then -limit else a

/-- `TeleopTwistJoy::Impl::sendCmdVelMsg`: builds the `Twist` from the sample
under the scale tables of `which_map`; in autorun (`autorun_flag` set) the
forward speed is the ramped accumulator `speed_x_max` (integrate a tenth of
the scaled input, clamp to `scale_linear_map["autorun"]["x"]`) and yaw is the
clamped sum of the primary and adjustment yaw sources.  Publishing clears
`sent_disable_msg`. -/
def sendCmdVelMsg (cfg : Config) (st : CState) (joy : Joy) (which : String) :
    Option (CState × Twist) :=
  (getVal joy cfg.axis_linear_map (scaleLinFor cfg which) "x").bind fun sx =>
  (getVal joy cfg.axis_angular_map (scaleAngFor cfg which) "yaw").bind fun syaw =>
  (if st.autorun_flag then
    (getVal joy cfg.axis_angular_adjustment_map (scaleAngFor cfg which) "yaw").map
      fun joystick =>
        (clampUD (st.speed_x_max + sx / 10) (mapGetD cfg.scale_linear_autorun "x"),
         clampUD (syaw + joystick) (mapGetD cfg.scale_angular_autorun "yaw"))
   else some (sx, syaw)).bind fun xz =>
  (getVal joy cfg.axis_linear_map (scaleLinFor cfg which) "y").bind fun liny =>
  (getVal joy cfg.axis_linear_map (scaleLinFor cfg which) "z").bind fun linz =>
  (getVal joy cfg.axis_angular_map (scaleAngFor cfg which) "pitch").bind fun angy =>
  (getVal joy cfg.axis_angular_map (scaleAngFor cfg which) "roll").map fun angx =>
  ({ st with
      speed_x_max := if st.autorun_flag then xz.1 else st.speed_x_max,
      sent_disable_msg := false },
   { linear_x := xz.1, linear_y := liny, linear_z := linz,
     angular_x := angx, angular_y := angy, angular_z := xz.2 })

/-- The autorun edge-detect block at the top of `joyCallback`: when the
autorun button is configured and within this sample's button range, a
strictly positive delta against `autorun_buffer` flips `autorun_flag`, and
the raw value is stored as the new `autorun_buffer`; otherwise the whole
block is skipped. -/
def edgeStep (cfg : Config) (st : CState) (joy : Joy) : CState :=
  if 0 ≤ cfg.enable_autorun_button ∧
      cfg.enable_autorun_button < (joy.buttons.length : Int) then
    let b := joy.buttons.getD cfg.enable_autorun_button.toNat 0
    { st with
        autorun_flag := if b - st.autorun_buffer > 0 then !st.autorun_flag
                        else st.autorun_flag,
        autorun_buffer := b }
  else st

/-- The turbo branch condition of `joyCallback`:
`enable_turbo_button >= 0 && buttons.size() > enable_turbo_button &&
buttons[enable_turbo_button]`.  The short-circuit guards make the read safe. -/
def turboCond (cfg : Config) (joy : Joy) : Bool :=
  decide (0 ≤ cfg.enable_turbo_button) &&
  decide (cfg.enable_turbo_button < (joy.buttons.length : Int)) &&
  decide (joy.buttons.getD cfg.enable_turbo_button.toNat 0 ≠ 0)

/-- The enable branch condition of `joyCallback`:
`!require_enable_button || (buttons.size() > enable_button &&
buttons[enable_button])`.  There is no `>= 0` guard on `enable_button`, so a
negative `enable_button` passes the size comparison and reaches the vector
read; the checked read then yields `none`. -/
def enableCond (cfg : Config) (joy : Joy) : Option Bool :=
  if cfg.require_enable_button then
    if cfg.enable_button < (joy.buttons.length : Int) then
      (readButton joy cfg.enable_button).map (fun b => decide (b ≠ 0))
    else some false
  else some true

/-- The operating mode a sample is processed in, one per branch of the
dispatch in `joyCallback`. -/
inductive Mode where
  | autorunM
  | turboM
  | normalM
  | disabledM
deriving DecidableEq, Repr

/-- `TeleopTwistJoy::Impl::joyCallback`: edge-detects the autorun toggle,
resets `speed_x_max` when autorun is not active, then dispatches in strict
priority order autorun > turbo > normal > disabled; the disabled branch
publishes the zero command once per disabled interval, gated by
`sent_disable_msg`.  Returns the branch taken, the new state, and the
published command if any; `none` models an out-of-range vector access. -/
def joyCallback (cfg : Config) (st : CState) (joy : Joy) :
    Option (Mode × CState × Option Twist) :=
  let st1 := edgeStep cfg st joy
  let st2 := if st1.autorun_flag then st1 else { st1 with speed_x_max := 0 }
  if st2.autorun_flag then
    (sendCmdVelMsg cfg st2 joy "autorun").map (fun r => (Mode.autorunM, r.1, some r.2))
  else if turboCond cfg joy then
    (sendCmdVelMsg cfg st2 joy "turbo").map (fun r => (Mode.turboM, r.1, some r.2))
  else match enableCond cfg joy with
    | none => none
    | some true =>
      (sendCmdVelMsg cfg st2 joy "normal").map (fun r => (Mode.normalM, r.1, some r.2))
    | some false =>
      if st2.sent_disable_msg then some (Mode.disabledM, st2, none)
      else some (Mode.disabledM, { st2 with sent_disable_msg := true }, some zeroTwist)

/-- Whether the unconditional diagnostic read
`joy_msg->buttons[enable_autorun_button]` on the `RCLCPP_INFO` line of
`joyCallback` is within bounds for this sample.  It is performed on every
sample, outside the range guard of the edge-detect block. -/
def logReadInBounds (cfg : Config) (joy : Joy) : Bool :=
  decide (0 ≤ cfg.enable_autorun_button) &&
  decide (cfg.enable_autorun_button < (joy.buttons.length : Int))

/-- Feed a sequence of samples through `joyCallback`, threading the state;
`none` as soon as any sample's processing performs an out-of-range access. -/
def runSeq (cfg : Config) : List Joy → CState → Option CState
  | [], st => some st
  | joy :: js, st =>
    match joyCallback cfg st joy with
    | none => none
    | some r => runSeq cfg js r.2.1

/-- `n` iterations of the autorun integrate-and-clamp update on the ramp
accumulator, with constant scaled forward input `d` and limit `lim`. -/
def rampIter (lim d : ℚ) : Nat → ℚ → ℚ
  | 0, s => s
  | n + 1, s => rampIter lim d n (clampUD (s + d / 10) lim)

/-- The configuration built by the constructor from the declared parameter
defaults. -/
def defaultConfig : Config where
  require_enable_button := true
  enable_button := 5
  enable_turbo_button := -1
  enable_autorun_button := -1
  axis_linear_map := [("x", 5), ("y", -1), ("z", -1)]
  axis_angular_map := [("yaw", 2), ("pitch", -1), ("roll", -1)]
  axis_angular_adjustment_map := [("yaw", 3), ("pitch", -1), ("roll", -1)]
  scale_linear_normal := [("x", 0.5), ("y", 0), ("z", 0)]
  scale_linear_turbo := [("x", 1), ("y", 0), ("z", 0)]
  scale_linear_autorun := [("x", 1), ("y", 0), ("z", 0)]
  scale_angular_normal := [("yaw", 0.5), ("pitch", 0), ("roll", 0)]
  scale_angular_turbo := [("yaw", 1), ("pitch", 0), ("roll", 0)]
  scale_angular_autorun := [("yaw", 1), ("pitch", 0), ("roll", 0)]

/-- The state the constructor initializes: `autorun_flag = false`,
`autorun_buffer = 0`, `speed_x_max = 0`, `sent_disable_msg = false`. -/
def initState : CState := ⟨false, 0, 0, false⟩

/-- A parameter value of one of the three kinds `rclcpp::Parameter` can take
here: integer, double, or boolean. -/
inductive PValue where
  | intV (v : Int)
  | doubleV (v : ℚ)
  | boolV (v : Bool)
deriving DecidableEq, Repr

/-- One entry of the parameter batch handed to `param_callback`. -/
structure Param where
  name : String
  value : PValue
deriving DecidableEq, Repr

/-- The `intparams` name set of `param_callback`. -/
def intparams : List String :=
  ["axis_linear.x", "axis_linear.y", "axis_linear.z",
   "axis_angular.yaw", "axis_angular.pitch", "axis_angular.roll",
   "axis_angular_adjustment.yaw", "axis_angular_adjustment.pitch",
   "axis_angular_adjustment.roll",
   "enable_button", "enable_turbo_button", "enable_autorun_button"]

/-- The `doubleparams` name set of `param_callback`. -/
def doubleparams : List String :=
  ["scale_linear.x", "scale_linear.y", "scale_linear.z",
   "scale_linear_turbo.x", "scale_linear_turbo.y", "scale_linear_turbo.z",
   "scale_linear_autorun.x", "scale_linear_autorun.y", "scale_linear_autorun.z",
   "scale_angular.yaw", "scale_angular.pitch", "scale_angular.roll",
   "scale_angular_turbo.yaw", "scale_angular_turbo.pitch", "scale_angular_turbo.roll",
   "scale_angular_autorun.yaw", "scale_angular_autorun.pitch", "scale_angular_autorun.roll"]

/-- The `boolparams` name set of `param_callback`. -/
def boolparams : List String := ["require_enable_button"]

/-- `rcl_interfaces::msg::SetParametersResult`: acceptance flag and reason. -/
structure SetResult where
  successful : Bool
  reason : String
deriving DecidableEq, Repr

/-- The first loop of `param_callback`: walks the batch in order and returns
at the first parameter whose name is in one of the three sets but whose
value kind differs, with the corresponding reason; otherwise accepts with
the default-constructed (empty) reason. -/
def validateParams : List Param → SetResult
  | [] => ⟨true, ""⟩
  | p :: ps =>
    if p.name ∈ intparams then
      match p.value with
      | .intV _ => validateParams ps
      | _ => ⟨false, "Only integer values can be set for " ++ p.name ++ "."⟩
    else if p.name ∈ doubleparams then
      match p.value with
      | .doubleV _ => validateParams ps
      | _ => ⟨false, "Only double values can be set for " ++ p.name ++ "."⟩
    else if p.name ∈ boolparams then
      match p.value with
      | .boolV _ => validateParams ps
      | _ => ⟨false, "Only boolean values can be set for " ++ p.name ++ "."⟩
    else validateParams ps

/-- `std::map::operator[] = v`: replace the value under an existing key, or
append the key. -/
def mapSet {α : Type} (m : List (String × α)) (k : String) (v : α) :
    List (String × α) :=
  if (m.find? (fun p => p.1 = k)).isSome then
    m.map (fun p => if p.1 = k then (k, v) else p)
  else m ++ [(k, v)]

/-- One parameter assignment of the second loop of `param_callback`.  The
source tests `require_enable_button` in a stand-alone `if` and every other
name in one `if`/`else if` chain beginning at `enable_button`; a name not in
the chain leaves the configuration unchanged.  The value-kind matches mirror
`get_value<T>`, which only succeeds on the kind the first loop validated. -/
def applyParam (cfg : Config) (p : Param) : Config :=
  let cfg1 :=
    if p.name = "require_enable_button" then
      match p.value with
      | .boolV b => { cfg with require_enable_button := b }
      | _ => cfg
    else cfg
  match p.value with
  | .intV v =>
    if p.name = "enable_button" then { cfg1 with enable_button := v }
    else if p.name = "enable_turbo_button" then { cfg1 with enable_turbo_button := v }
    else if p.name = "enable_autorun_button" then { cfg1 with enable_autorun_button := v }
    else if p.name = "axis_linear.x" then
      { cfg1 with axis_linear_map := mapSet cfg1.axis_linear_map "x" v }
    else if p.name = "axis_linear.y" then
      { cfg1 with axis_linear_map := mapSet cfg1.axis_linear_map "y" v }
    else if p.name = "axis_linear.z" then
      { cfg1 with axis_linear_map := mapSet cfg1.axis_linear_map "z" v }
    else if p.name = "axis_angular_adjustment.yaw" then
      { cfg1 with
          axis_angular_adjustment_map := mapSet cfg1.axis_angular_adjustment_map "yaw" v }
    else if p.name = "axis_angular_adjustment.pitch" then
      { cfg1 with
          axis_angular_adjustment_map := mapSet cfg1.axis_angular_adjustment_map "pitch" v }
    else if p.name = "axis_angular_adjustment.roll" then
      { cfg1 with
          axis_angular_adjustment_map := mapSet cfg1.axis_angular_adjustment_map "roll" v }
    else if p.name = "axis_angular.yaw" then
      { cfg1 with axis_angular_map := mapSet cfg1.axis_angular_map "yaw" v }
    else if p.name = "axis_angular.pitch" then
      { cfg1 with axis_angular_map := mapSet cfg1.axis_angular_map "pitch" v }
    else if p.name = "axis_angular.roll" then
      { cfg1 with axis_angular_map := mapSet cfg1.axis_angular_map "roll" v }
    else cfg1
  | .doubleV v =>
    if p.name = "scale_linear_autorun.x" then
      { cfg1 with scale_linear_autorun := mapSet cfg1.scale_linear_autorun "x" v }
    else if p.name = "scale_linear_autorun.y" then
      { cfg1 with scale_linear_autorun := mapSet cfg1.scale_linear_autorun "y" v }
    else if p.name = "scale_linear_autorun.z" then
      { cfg1 with scale_linear_autorun := mapSet cfg1.scale_linear_autorun "z" v }
    else if p.name = "scale_linear_turbo.x" then
      { cfg1 with scale_linear_turbo := mapSet cfg1.scale_linear_turbo "x" v }
    else if p.name = "scale_linear_turbo.y" then
      { cfg1 with scale_linear_turbo := mapSet cfg1.scale_linear_turbo "y" v }
    else if p.name = "scale_linear_turbo.z" then
      { cfg1 with scale_linear_turbo := mapSet cfg1.scale_linear_turbo "z" v }
    else if p.name = "scale_linear.x" then
      { cfg1 with scale_linear_normal := mapSet cfg1.scale_linear_normal "x" v }
    else if p.name = "scale_linear.y" then
      { cfg1 with scale_linear_normal := mapSet cfg1.scale_linear_normal "y" v }
    else if p.name = "scale_linear.z" then
      { cfg1 with scale_linear_normal := mapSet cfg1.scale_linear_normal "z" v }
    else if p.name = "scale_angular_autorun.yaw" then
      { cfg1 with scale_angular_autorun := mapSet cfg1.scale_angular_autorun "yaw" v }
    else if p.name = "scale_angular_autorun.pitch" then
      { cfg1 with scale_angular_autorun := mapSet cfg1.scale_angular_autorun "pitch" v }
    else if p.name = "scale_angular_autorun.roll" then
      { cfg1 with scale_angular_autorun := mapSet cfg1.scale_angular_autorun "roll" v }
    else if p.name = "scale_angular_turbo.yaw" then
      { cfg1 with scale_angular_turbo := mapSet cfg1.scale_angular_turbo "yaw" v }
    else if p.name = "scale_angular_turbo.pitch" then
      { cfg1 with scale_angular_turbo := mapSet cfg1.scale_angular_turbo "pitch" v }
    else if p.name = "scale_angular_turbo.roll" then
      { cfg1 with scale_angular_turbo := mapSet cfg1.scale_angular_turbo "roll" v }
    else if p.name = "scale_angular.yaw" then
      { cfg1 with scale_angular_normal := mapSet cfg1.scale_angular_normal "yaw" v }
    else if p.name = "scale_angular.pitch" then
      { cfg1 with scale_angular_normal := mapSet cfg1.scale_angular_normal "pitch" v }
    else if p.name = "scale_angular.roll" then
      { cfg1 with scale_angular_normal := mapSet cfg1.scale_angular_normal "roll" v }
    else cfg1
  | .boolV _ => cfg1

/-- The second loop of `param_callback`: apply every assignment in order. -/
def applyParams (cfg : Config) (ps : List Param) : Config :=
  ps.foldl applyParam cfg

/-- `param_callback`: validate the whole batch first; a kind mismatch
returns the failure before any assignment, otherwise all assignments are
applied. -/
def param_callback (cfg : Config) (ps : List Param) : Config × SetResult :=
  let r := validateParams ps
  if r.successful then (applyParams cfg ps, r) else (cfg, r)

/-- A parameter has the kind its name's set expects (names in no set are
unconstrained). -/
def kindOK (p : Param) : Bool :=
  if p.name ∈ intparams then
    match p.value with
    | .intV _ => true
    | _ => false
  else if p.name ∈ doubleparams then
    match p.value with
    | .doubleV _ => true
    | _ => false
  else if p.name ∈ boolparams then
    match p.value with
    | .boolV _ => true
    | _ => false
  else true

/-- The reason string `param_callback` produces for a kind mismatch on this
parameter: it names the offending field. -/
def mismatchReason (p : Param) : String :=
  if p.name ∈ intparams then
    "Only integer values can be set for " ++ p.name ++ "."
  else if p.name ∈ doubleparams then
    "Only double values can be set for " ++ p.name ++ "."
  else "Only boolean values can be set for " ++ p.name ++ "."

/-- A button index is within this sample's button range and the button is
pressed (non-zero). -/
def pressedInRange (joy : Joy) (b : Int) : Bool :=
  decide (0 ≤ b) && decide (b < (joy.buttons.length : Int)) &&
  decide (joy.buttons.getD b.toNat 0 ≠ 0)

/-- The mode-priority resolution as the specification words it: autorun
(from the current toggle state) overrides everything; then turbo when its
button is configured, within range and pressed; then normal when the enable
requirement is off or the enable button is within range and pressed; else
disabled. -/
def selectModeSpec (cfg : Config) (autorun_active : Bool) (joy : Joy) : Mode :=
  if autorun_active then Mode.autorunM
  else if pressedInRange joy cfg.enable_turbo_button then Mode.turboM
  else if !cfg.require_enable_button || pressedInRange joy cfg.enable_button then
    Mode.normalM
  else Mode.disabledM

/-- Every axis read `sendCmdVelMsg` performs in autorun mode succeeds, i.e.
no mapped axis index is `<= -2` (such an index would reach an out-of-range
vector access in `getVal`). -/
def autorunReadsOK (cfg : Config) (joy : Joy) : Bool :=
  (getVal joy cfg.axis_linear_map (scaleLinFor cfg "autorun") "x").isSome &&
  (getVal joy cfg.axis_angular_map (scaleAngFor cfg "autorun") "yaw").isSome &&
  (getVal joy cfg.axis_angular_adjustment_map (scaleAngFor cfg "autorun") "yaw").isSome &&
  (getVal joy cfg.axis_linear_map (scaleLinFor cfg "autorun") "y").isSome &&
  (getVal joy cfg.axis_linear_map (scaleLinFor cfg "autorun") "z").isSome &&
  (getVal joy cfg.axis_angular_map (scaleAngFor cfg "autorun") "pitch").isSome &&
  (getVal joy cfg.axis_angular_map (scaleAngFor cfg "autorun") "roll").isSome

theorem clampUD_bounds (x L : ℚ) (hL : 0 ≤ L) :
    -L ≤ clampUD x L ∧ clampUD x L ≤ L := by
  simp only [clampUD]
  split_ifs <;> constructor <;> linarith

theorem clampUD_high (x L : ℚ) (hL : 0 ≤ L) (h : L < x) : clampUD x L = L := by
  simp only [clampUD]
  split_ifs <;> first | rfl | linarith

theorem clampUD_low (x L : ℚ) (h : x < -L) : clampUD x L = -L := by
  simp only [clampUD]
  split_ifs <;> first | rfl | linarith

theorem clampUD_id (x L : ℚ) (h1 : -L ≤ x) (h2 : x ≤ L) : clampUD x L = x := by
  simp only [clampUD]
  split_ifs <;> first | rfl | linarith

theorem edgeStep_speed (cfg : Config) (st : CState) (joy : Joy) :
    (edgeStep cfg st joy).speed_x_max = st.speed_x_max := by
  unfold edgeStep; split <;> rfl

theorem edgeStep_sent (cfg : Config) (st : CState) (joy : Joy) :
    (edgeStep cfg st joy).sent_disable_msg = st.sent_disable_msg := by
  unfold edgeStep; split <;> rfl

theorem sendCmdVelMsg_eq (cfg : Config) (st : CState) (joy : Joy) (w : String)
    (r : CState × Twist) (h : sendCmdVelMsg cfg st joy w = some r) :
    ∃ sx syaw,
      getVal joy cfg.axis_linear_map (scaleLinFor cfg w) "x" = some sx ∧
      getVal joy cfg.axis_angular_map (scaleAngFor cfg w) "yaw" = some syaw ∧
      r.1.autorun_flag = st.autorun_flag ∧
      r.1.autorun_buffer = st.autorun_buffer ∧
      r.1.sent_disable_msg = false ∧
      (st.autorun_flag = false → r.1.speed_x_max = st.speed_x_max ∧
        r.2.linear_x = sx ∧ r.2.angular_z = syaw) ∧
      (st.autorun_flag = true → ∃ ja,
        getVal joy cfg.axis_angular_adjustment_map (scaleAngFor cfg w) "yaw" = some ja ∧
        r.1.speed_x_max =
          clampUD (st.speed_x_max + sx / 10) (mapGetD cfg.scale_linear_autorun "x") ∧
        r.2.linear_x = r.1.speed_x_max ∧
        r.2.angular_z = clampUD (syaw + ja) (mapGetD cfg.scale_angular_autorun "yaw")) := by
  simp only [sendCmdVelMsg, Option.bind_eq_some, Option.map_eq_some'] at h
  obtain ⟨sx, hsx, syaw, hsyaw, xz, hxz, liny, hliny, linz, hlinz, angy, hangy,
    angx, hangx, hr⟩ := h
  refine ⟨sx, syaw, hsx, hsyaw, ?_⟩
  subst hr
  refine ⟨rfl, rfl, rfl, ?_, ?_⟩
  · intro hflag
    rw [hflag] at hxz
    simp only [Bool.false_eq_true, if_false, Option.some_inj] at hxz
    subst hxz
    simp [hflag]
  · intro hflag
    rw [hflag] at hxz
    simp only [if_true, Option.map_eq_some'] at hxz
    obtain ⟨ja, hja, hxz2⟩ := hxz
    subst hxz2
    exact ⟨ja, hja, by simp [hflag], by simp [hflag], by simp [hflag]⟩

theorem enableCond_eq (cfg : Config) (joy : Joy) (v : Bool)
    (h : enableCond cfg joy = some v) :
    v = (!cfg.require_enable_button || pressedInRange joy cfg.enable_button) := by
  unfold enableCond at h
  by_cases hreq : cfg.require_enable_button
  · rw [if_pos hreq] at h
    by_cases hlen : cfg.enable_button < (joy.buttons.length : Int)
    · rw [if_pos hlen] at h
      unfold readButton at h
      by_cases hge : 0 ≤ cfg.enable_button ∧ cfg.enable_button < (joy.buttons.length : Int)
      · rw [if_pos hge] at h
        simp only [Option.map_some', Option.some_inj] at h
        subst h
        simp [pressedInRange, hreq, hge.1, hge.2]
      · rw [if_neg hge] at h
        simp at h
    · rw [if_neg hlen] at h
      simp only [Option.some_inj] at h
      subst h
      simp [pressedInRange, hreq, hlen]
  · rw [if_neg hreq] at h
    simp only [Option.some_inj] at h
    subst h
    simp [hreq]

theorem turboCond_eq (cfg : Config) (joy : Joy) :
    turboCond cfg joy = pressedInRange joy cfg.enable_turbo_button := rfl

theorem joyCallback_char (cfg : Config) (st : CState) (joy : Joy)
    (m : Mode) (st2 : CState) (out : Option Twist)
    (h : joyCallback cfg st joy = some (m, st2, out)) :
    st2.autorun_flag = (edgeStep cfg st joy).autorun_flag ∧
    st2.autorun_buffer = (edgeStep cfg st joy).autorun_buffer ∧
    (m = Mode.autorunM ↔ (edgeStep cfg st joy).autorun_flag = true) ∧
    (m ≠ Mode.autorunM → st2.speed_x_max = 0) ∧
    (m = Mode.autorunM → ∃ sx,
      getVal joy cfg.axis_linear_map (scaleLinFor cfg "autorun") "x" = some sx ∧
      st2.speed_x_max =
        clampUD (st.speed_x_max + sx / 10) (mapGetD cfg.scale_linear_autorun "x")) ∧
    ((edgeStep cfg st joy).autorun_flag = false →
      (m = Mode.turboM ↔ turboCond cfg joy = true)) ∧
    ((edgeStep cfg st joy).autorun_flag = false → turboCond cfg joy = false →
      ∃ v, enableCond cfg joy = some v ∧
        m = (if v then Mode.normalM else Mode.disabledM)) ∧
    (m ≠ Mode.disabledM → st2.sent_disable_msg = false ∧ ∃ t, out = some t) ∧
    (m = Mode.disabledM → st2.sent_disable_msg = true ∧
      (st.sent_disable_msg = false → out = some zeroTwist) ∧
      (st.sent_disable_msg = true → out = none)) := by
  have hsp := edgeStep_speed cfg st joy
  have hsent := edgeStep_sent cfg st joy
  simp only [joyCallback] at h
  set st1 := edgeStep cfg st joy with hst1
  by_cases hf : st1.autorun_flag = true
  · rw [if_pos hf] at h
    rw [if_pos (by rw [hf])] at h
    rw [Option.map_eq_some'] at h
    obtain ⟨r, hsend, hr⟩ := h
    simp only [Prod.mk.injEq] at hr
    obtain ⟨hm, hrst, hout⟩ := hr
    subst hm; subst hrst; subst hout
    obtain ⟨sx, syaw, hsx, hsyaw, hfl, hbuf, hsent2, hnon, hauto⟩ :=
      sendCmdVelMsg_eq cfg st1 joy "autorun" r hsend
    obtain ⟨ja, hja, hspe, hlx, haz⟩ := hauto hf
    refine ⟨hfl, hbuf, ⟨fun _ => hf, fun _ => rfl⟩, ?_, ?_, ?_, ?_, ?_, ?_⟩
    · intro hne; exact absurd rfl hne
    · intro _
      exact ⟨sx, hsx, by rw [hspe, hsp]⟩
    · intro hf2; rw [hf] at hf2; cases hf2
    · intro hf2; rw [hf] at hf2; cases hf2
    · intro _; exact ⟨hsent2, r.2, rfl⟩
    · intro hmd; cases hmd
  · have hf2 : st1.autorun_flag = false := by
      cases hflag : st1.autorun_flag
      · rfl
      · exact absurd hflag hf
    rw [if_neg hf] at h
    have hfB : (CState.mk st1.autorun_flag st1.autorun_buffer 0
        st1.sent_disable_msg).autorun_flag = false := hf2
    rw [if_neg (by rw [hfB]; simp)] at h
    by_cases ht : turboCond cfg joy = true
    · rw [if_pos ht] at h
      rw [Option.map_eq_some'] at h
      obtain ⟨r, hsend, hr⟩ := h
      simp only [Prod.mk.injEq] at hr
      obtain ⟨hm, hrst, hout⟩ := hr
      subst hm; subst hrst; subst hout
      obtain ⟨sx, syaw, hsx, hsyaw, hfl, hbuf, hsent2, hnon, hauto⟩ :=
        sendCmdVelMsg_eq cfg _ joy "turbo" r hsend
      obtain ⟨hspe, _, _⟩ := hnon hf2
      refine ⟨hfl, hbuf, ?_, ?_, ?_, ?_, ?_, ?_, ?_⟩
      · constructor
        · intro hmm; cases hmm
        · intro htr; rw [htr] at hf2; cases hf2
      · intro _; rw [hspe]
      · intro hmm; cases hmm
      · intro _; exact ⟨fun _ => ht, fun _ => rfl⟩
      · intro _ ht2; rw [ht] at ht2; cases ht2
      · intro _; exact ⟨hsent2, r.2, rfl⟩
      · intro hmd; cases hmd
    · have ht2 : turboCond cfg joy = false := by
        cases htb : turboCond cfg joy
        · rfl
        · exact absurd htb ht
      rw [if_neg ht] at h
      cases hen : enableCond cfg joy with
      | none => rw [hen] at h; cases h
      | some v =>
        rw [hen] at h
        cases v with
        | true =>
          simp only [Option.map_eq_some'] at h
          obtain ⟨r, hsend, hr⟩ := h
          simp only [Prod.mk.injEq] at hr
          obtain ⟨hm, hrst, hout⟩ := hr
          subst hm; subst hrst; subst hout
          obtain ⟨sx, syaw, hsx, hsyaw, hfl, hbuf, hsent2, hnon, hauto⟩ :=
            sendCmdVelMsg_eq cfg _ joy "normal" r hsend
          obtain ⟨hspe, _, _⟩ := hnon hf2
          refine ⟨hfl, hbuf, ?_, ?_, ?_, ?_, ?_, ?_, ?_⟩
          · constructor
            · intro hmm; cases hmm
            · intro htr; rw [htr] at hf2; cases hf2
          · intro _; rw [hspe]
          · intro hmm; cases hmm
          · intro _
            constructor
            · intro hmm; cases hmm
            · intro htb; rw [ht2] at htb; cases htb
          · intro _ _; exact ⟨true, rfl, rfl⟩
          · intro _; exact ⟨hsent2, r.2, rfl⟩
          · intro hmd; cases hmd
        | false =>
          by_cases hsd : st1.sent_disable_msg = true
          · rw [if_pos hsd] at h
            simp only [Option.some_inj, Prod.mk.injEq] at h
            obtain ⟨hm, hrst, hout⟩ := h
            subst hm; subst hrst; subst hout
            refine ⟨hf2 ▸ rfl, rfl, ?_, ?_, ?_, ?_, ?_, ?_, ?_⟩
            · constructor
              · intro hmm; cases hmm
              · intro htr; rw [htr] at hf2; cases hf2
            · intro _; rfl
            · intro hmm; cases hmm
            · intro _
              constructor
              · intro hmm; cases hmm
              · intro htb; rw [ht2] at htb; cases htb
            · intro _ _; exact ⟨false, rfl, rfl⟩
            · intro hne; exact absurd rfl hne
            · intro _
              refine ⟨hsd, ?_, fun _ => rfl⟩
              intro hsf
              rw [← hsent, hsd] at hsf; cases hsf
          · have hsd2 : st1.sent_disable_msg = false := by
              cases hss : st1.sent_disable_msg
              · rfl
              · exact absurd hss hsd
            rw [if_neg hsd] at h
            simp only [Option.some_inj, Prod.mk.injEq] at h
            obtain ⟨hm, hrst, hout⟩ := h
            subst hm; subst hrst; subst hout
            refine ⟨hf2 ▸ rfl, rfl, ?_, ?_, ?_, ?_, ?_, ?_, ?_⟩
            · constructor
              · intro hmm; cases hmm
              · intro htr; rw [htr] at hf2; cases hf2
            · intro _; rfl
            · intro hmm; cases hmm
            · intro _
              constructor
              · intro hmm; cases hmm
              · intro htb; rw [ht2] at htb; cases htb
            · intro _ _; exact ⟨false, rfl, rfl⟩
            · intro hne; exact absurd rfl hne
            · intro _
              refine ⟨rfl, fun _ => rfl, ?_⟩
              intro hsf
              rw [← hsent, hsd2] at hsf; cases hsf

theorem edgeStep_in_range (cfg : Config) (st : CState) (joy : Joy)
    (heab : 0 ≤ cfg.enable_autorun_button)
    (hr : cfg.enable_autorun_button < (joy.buttons.length : Int)) :
    edgeStep cfg st joy =
      { st with
          autorun_flag :=
            if joy.buttons.getD cfg.enable_autorun_button.toNat 0 - st.autorun_buffer > 0
            then !st.autorun_flag else st.autorun_flag,
          autorun_buffer := joy.buttons.getD cfg.enable_autorun_button.toNat 0 } := by
  unfold edgeStep
  rw [if_pos ⟨heab, hr⟩]

theorem edgeStep_skipped (cfg : Config) (st : CState) (joy : Joy)
    (hr : ¬ (0 ≤ cfg.enable_autorun_button ∧
      cfg.enable_autorun_button < (joy.buttons.length : Int))) :
    edgeStep cfg st joy = st := by
  unfold edgeStep
  rw [if_neg hr]

/-- C1: for every incoming sample, the mode is chosen in strict priority
order: autorun (whenever the toggle state is on) over turbo (configured,
within range, pressed) over normal (enable requirement off, or enable
button within range and pressed) over disabled.  `selectModeSpec` renders
the specification's wording of that order; any defined execution of
`joyCallback` picks exactly that mode. -/
theorem C1_mode_priority (cfg : Config) (st : CState) (joy : Joy)
    (m : Mode) (st2 : CState) (out : Option Twist)
    (h : joyCallback cfg st joy = some (m, st2, out)) :
    m = selectModeSpec cfg st2.autorun_flag joy := by
  obtain ⟨hfl, _, hiff, _, _, hturbo, henab, _, _⟩ :=
    joyCallback_char cfg st joy m st2 out h
  rw [hfl]
  unfold selectModeSpec
  by_cases hf : (edgeStep cfg st joy).autorun_flag = true
  · rw [if_pos (by rw [hf])]
    exact hiff.mpr hf
  · have hf2 : (edgeStep cfg st joy).autorun_flag = false := by
      cases hE : (edgeStep cfg st joy).autorun_flag
      · rfl
      · exact absurd hE hf
    rw [if_neg hf, ← turboCond_eq cfg joy]
    by_cases htc : turboCond cfg joy = true
    · rw [if_pos (by rw [htc])]
      exact (hturbo hf2).mpr htc
    · have htc2 : turboCond cfg joy = false := by
        cases hT : turboCond cfg joy
        · rfl
        · exact absurd hT htc
      rw [if_neg htc]
      obtain ⟨v, hv, hm⟩ := henab hf2 htc2
      rw [← enableCond_eq cfg joy v hv]
      exact hm

/-- C1 witness: a concrete defined run (default configuration, enable button
pressed) is processed in Normal mode, the mode the priority resolution picks. -/
theorem C1_mode_priority_witness :
    Mode.normalM =
      selectModeSpec defaultConfig
        (CState.mk false 0 0 false).autorun_flag ⟨[0, 0.8], [0, 0, 0, 0, 0, 1]⟩ :=
  C1_mode_priority defaultConfig initState ⟨[0, 0.8], [0, 0, 0, 0, 0, 1]⟩
    Mode.normalM (CState.mk false 0 0 false) (some zeroTwist) (by decide)

/-- C2: the claim that processing never reads the sample's sequences out of
range fails on the code: with `enable_button = -1` (the documented "unused"
value) and the enable gate reached, `joyCallback` evaluates
`buttons[enable_button]`, an out-of-range access (`none` in the model); and
the unconditional diagnostic read `buttons[enable_autorun_button]` on the
logging line is out of bounds under the default configuration
(`enable_autorun_button = -1`) for every sample. -/
theorem C2_out_of_range_read :
    joyCallback { defaultConfig with enable_button := -1 } initState ⟨[], []⟩ = none ∧
    logReadInBounds defaultConfig ⟨[], []⟩ = false := by decide

/-- C3: with the autorun toggle button configured and within range on two
consecutive samples, the value sequence `[0,1]` (rising edge) flips
`autorun_flag` at the second sample, while `[1,1]` (held) and `[1,0]`
(falling edge) leave it unchanged. -/
theorem C3_autorun_toggle (cfg : Config) (st0 s1 s2 : CState) (joy1 joy2 : Joy)
    (m1 m2 : Mode) (o1 o2 : Option Twist) (b1 b2 : Int)
    (h1 : joyCallback cfg st0 joy1 = some (m1, s1, o1))
    (h2 : joyCallback cfg s1 joy2 = some (m2, s2, o2))
    (heab : 0 ≤ cfg.enable_autorun_button)
    (hr1 : cfg.enable_autorun_button < (joy1.buttons.length : Int))
    (hr2 : cfg.enable_autorun_button < (joy2.buttons.length : Int))
    (hb1 : joy1.buttons.getD cfg.enable_autorun_button.toNat 0 = b1)
    (hb2 : joy2.buttons.getD cfg.enable_autorun_button.toNat 0 = b2) :
    (b1 = 0 ∧ b2 = 1 → s2.autorun_flag = !s1.autorun_flag) ∧
    (b1 = 1 ∧ b2 = 1 → s2.autorun_flag = s1.autorun_flag) ∧
    (b1 = 1 ∧ b2 = 0 → s2.autorun_flag = s1.autorun_flag) := by
  obtain ⟨_, hbuf1, _⟩ := joyCallback_char cfg st0 joy1 m1 s1 o1 h1
  obtain ⟨hfl2, _, _⟩ := joyCallback_char cfg s1 joy2 m2 s2 o2 h2
  rw [edgeStep_in_range cfg st0 joy1 heab hr1] at hbuf1
  rw [edgeStep_in_range cfg s1 joy2 heab hr2] at hfl2
  simp only [hb1] at hbuf1
  simp only [hb2] at hfl2
  rw [hbuf1] at hfl2
  refine ⟨?_, ?_, ?_⟩ <;> rintro ⟨hv1, hv2⟩ <;> rw [hv1, hv2] at hfl2 <;>
    norm_num at hfl2 <;> exact hfl2

/-- C3 witness: toggle button on index 0, samples with values 0 then 1: the
flag flips at the second sample. -/
theorem C3_autorun_toggle_witness :
    (CState.mk true 1 0 false).autorun_flag = !(CState.mk false 0 0 false).autorun_flag :=
  (C3_autorun_toggle
      { defaultConfig with require_enable_button := false, enable_autorun_button := 0 }
      initState (CState.mk false 0 0 false) (CState.mk true 1 0 false)
      ⟨[], [0]⟩ ⟨[], [1]⟩ Mode.normalM Mode.autorunM
      (some zeroTwist) (some zeroTwist) 0 1
      (by simp [joyCallback, edgeStep, sendCmdVelMsg, getVal, readAxis, readButton, mapFind, mapGetD, scaleLinFor, scaleAngFor, turboCond, enableCond, clampUD, defaultConfig, initState, zeroTwist] <;> norm_num)
      (by simp [joyCallback, edgeStep, sendCmdVelMsg, getVal, readAxis, readButton, mapFind, mapGetD, scaleLinFor, scaleAngFor, turboCond, enableCond, clampUD, defaultConfig, initState, zeroTwist] <;> norm_num)
      (by decide) (by decide) (by decide)
      (by decide) (by decide)).1 ⟨rfl, rfl⟩

/-- C4 counterexample: the raw current value is NOT stored unconditionally
when the configured index is out of range for this sample: with
`enable_autorun_button = 0` and an empty button sequence, the new
`autorun_buffer` is whatever it was before (5 stays 5, 7 stays 7), so it
depends on the prior state rather than on the sample. -/
theorem C4_store_counterexample :
    (joyCallback
        { defaultConfig with require_enable_button := false, enable_autorun_button := 0 }
        (CState.mk false 5 0 false) ⟨[], []⟩).map (fun r => r.2.1.autorun_buffer) =
      some 5 ∧
    (joyCallback
        { defaultConfig with require_enable_button := false, enable_autorun_button := 0 }
        (CState.mk false 7 0 false) ⟨[], []⟩).map (fun r => r.2.1.autorun_buffer) =
      some 7 := by decide

/-- C4 amended: when the autorun toggle button is configured (`>= 0`), the
raw current value is stored as the new `autorun_button_prev` exactly when
the index is within this sample's button range; when it is out of range the
whole edge-detect block is skipped and `autorun_button_prev` is unchanged. -/
theorem C4_buffer_update (cfg : Config) (st : CState) (joy : Joy)
    (m : Mode) (st2 : CState) (out : Option Twist)
    (h : joyCallback cfg st joy = some (m, st2, out))
    (heab : 0 ≤ cfg.enable_autorun_button) :
    (cfg.enable_autorun_button < (joy.buttons.length : Int) →
      st2.autorun_buffer = joy.buttons.getD cfg.enable_autorun_button.toNat 0) ∧
    (¬ cfg.enable_autorun_button < (joy.buttons.length : Int) →
      st2.autorun_buffer = st.autorun_buffer) := by
  obtain ⟨_, hbuf, _⟩ := joyCallback_char cfg st joy m st2 out h
  constructor
  · intro hr
    rw [hbuf, edgeStep_in_range cfg st joy heab hr]
  · intro hr
    rw [hbuf, edgeStep_skipped cfg st joy (fun hc => hr hc.2)]

/-- C4 witness: toggle button index 0 within range, value 9: the buffer
becomes 9. -/
theorem C4_buffer_update_witness :
    (CState.mk true 9 0 false).autorun_buffer =
      (Joy.mk [] [9]).buttons.getD (Int.toNat 0) 0 :=
  (C4_buffer_update
      { defaultConfig with require_enable_button := false, enable_autorun_button := 0 }
      initState (Joy.mk [] [9]) Mode.autorunM (CState.mk true 9 0 false)
      (some zeroTwist)
      (by simp [joyCallback, edgeStep, sendCmdVelMsg, getVal, readAxis, readButton, mapFind, mapGetD, scaleLinFor, scaleAngFor, turboCond, enableCond, clampUD, defaultConfig, initState, zeroTwist] <;> norm_num)
      (by decide)).1 (by decide)

/-- C5: after any defined processing step, `speed_x_max` lies in
`[-limit, limit]` with `limit = scale_linear[autorun][x] * 1.0` (the scale
being nonnegative, as the interval form of the claim presupposes): the
clamp bounds it on autorun samples and the reset zeroes it on all others. -/
theorem C5_ramp_bounded (cfg : Config) (st : CState) (joy : Joy)
    (m : Mode) (st2 : CState) (out : Option Twist)
    (h : joyCallback cfg st joy = some (m, st2, out))
    (hL : 0 ≤ mapGetD cfg.scale_linear_autorun "x") :
    -(mapGetD cfg.scale_linear_autorun "x") ≤ st2.speed_x_max ∧
    st2.speed_x_max ≤ mapGetD cfg.scale_linear_autorun "x" := by
  obtain ⟨_, _, _, hz, hA, _⟩ := joyCallback_char cfg st joy m st2 out h
  by_cases hm : m = Mode.autorunM
  · obtain ⟨sx, _, hspe⟩ := hA hm
    rw [hspe]
    exact clampUD_bounds _ _ hL
  · rw [hz hm]
    constructor <;> linarith

/-- C5 witness: a concrete disabled sample under the default configuration
leaves `speed_x_max = 0`, inside `[-1, 1]`. -/
theorem C5_ramp_bounded_witness :
    -(mapGetD defaultConfig.scale_linear_autorun "x") ≤
      (CState.mk false 0 0 true).speed_x_max ∧
    (CState.mk false 0 0 true).speed_x_max ≤
      mapGetD defaultConfig.scale_linear_autorun "x" :=
  C5_ramp_bounded defaultConfig initState ⟨[], []⟩ Mode.disabledM
    (CState.mk false 0 0 true) (some zeroTwist) (by decide) (by decide)

theorem joyCallback_autorun_step (cfg : Config) (st : CState) (joy : Joy) (d : ℚ)
    (hflag : st.autorun_flag = true)
    (heab : 0 ≤ cfg.enable_autorun_button)
    (hr : cfg.enable_autorun_button < (joy.buttons.length : Int))
    (hbuf : st.autorun_buffer = joy.buttons.getD cfg.enable_autorun_button.toNat 0)
    (hok : autorunReadsOK cfg joy = true)
    (hd : getVal joy cfg.axis_linear_map (scaleLinFor cfg "autorun") "x" = some d) :
    ∃ t, joyCallback cfg st joy =
      some (Mode.autorunM,
        { st with
            speed_x_max :=
              clampUD (st.speed_x_max + d / 10) (mapGetD cfg.scale_linear_autorun "x"),
            sent_disable_msg := false }, some t) := by
  have hedge : edgeStep cfg st joy = st := by
    rw [edgeStep_in_range cfg st joy heab hr, ← hbuf]
    simp
  simp only [autorunReadsOK, Bool.and_eq_true, Option.isSome_iff_exists] at hok
  obtain ⟨⟨⟨⟨⟨⟨⟨sx, hsx⟩, ⟨syaw, hsyaw⟩⟩, ⟨ja, hja⟩⟩, ⟨vy, hvy⟩⟩, ⟨vz, hvz⟩⟩,
    ⟨vp, hvp⟩⟩, ⟨vr, hvr⟩⟩ := hok
  have hsend : sendCmdVelMsg cfg st joy "autorun" =
      some ({ st with
                speed_x_max :=
                  clampUD (st.speed_x_max + d / 10) (mapGetD cfg.scale_linear_autorun "x"),
                sent_disable_msg := false },
            { linear_x := clampUD (st.speed_x_max + d / 10)
                (mapGetD cfg.scale_linear_autorun "x"),
              linear_y := vy, linear_z := vz, angular_x := vr, angular_y := vp,
              angular_z := clampUD (syaw + ja) (mapGetD cfg.scale_angular_autorun "yaw") }) := by
    simp [sendCmdVelMsg, hd, hsyaw, hja, hvy, hvz, hvp, hvr, hflag]
  refine ⟨{ linear_x := clampUD (st.speed_x_max + d / 10)
              (mapGetD cfg.scale_linear_autorun "x"),
            linear_y := vy, linear_z := vz, angular_x := vr, angular_y := vp,
            angular_z := clampUD (syaw + ja) (mapGetD cfg.scale_angular_autorun "yaw") }, ?_⟩
  simp only [joyCallback]
  rw [hedge, if_pos hflag, if_pos hflag, hsend]
  rfl

theorem clamp_min_step (L d a : ℚ) (hL : 0 ≤ L) (hd : 0 < d) (ha : 0 ≤ a) :
    clampUD (min a L + d / 10) L = min (a + d / 10) L := by
  rcases le_total a L with hal | hal
  · rw [min_eq_left hal]
    rcases le_or_lt (a + d / 10) L with h2 | h2
    · rw [min_eq_left h2, clampUD_id _ _ (by linarith) h2]
    · rw [min_eq_right h2.le, clampUD_high _ _ hL h2]
  · rw [min_eq_right hal]
    rw [clampUD_high _ _ hL (by linarith)]
    rw [min_eq_right (by linarith)]

theorem clamp_max_step (L d a : ℚ) (hL : 0 ≤ L) (hd : d < 0) (ha : a ≤ 0) :
    clampUD (max a (-L) + d / 10) L = max (a + d / 10) (-L) := by
  rcases le_total (-L) a with hal | hal
  · rw [max_eq_left hal]
    rcases le_or_lt (-L) (a + d / 10) with h2 | h2
    · rw [max_eq_left h2, clampUD_id _ _ h2 (by linarith)]
    · rw [max_eq_right h2.le, clampUD_low _ _ h2]
  · rw [max_eq_right hal]
    rw [clampUD_low _ _ (by linarith)]
    rw [max_eq_right (by linarith)]

theorem rampIter_min (L d : ℚ) (hL : 0 ≤ L) (hd : 0 < d) :
    ∀ (k j : Nat), rampIter L d k (min ((j : ℚ) * d / 10) L) =
      min (((j + k : Nat) : ℚ) * d / 10) L := by
  intro k
  induction k with
  | zero => intro j; simp [rampIter]
  | succ k ih =>
    intro j
    have haj : (0 : ℚ) ≤ (j : ℚ) * d / 10 := by
      have hj : (0 : ℚ) ≤ (j : ℚ) := Nat.cast_nonneg j
      positivity
    have hstep : clampUD (min ((j : ℚ) * d / 10) L + d / 10) L =
        min (((j + 1 : Nat) : ℚ) * d / 10) L := by
      rw [clamp_min_step L d ((j : ℚ) * d / 10) hL hd haj]
      congr 1
      push_cast
      ring
    calc rampIter L d (k + 1) (min ((j : ℚ) * d / 10) L)
        = rampIter L d k (clampUD (min ((j : ℚ) * d / 10) L + d / 10) L) := rfl
      _ = rampIter L d k (min (((j + 1 : Nat) : ℚ) * d / 10) L) := by rw [hstep]
      _ = min (((j + 1 + k : Nat) : ℚ) * d / 10) L := ih (j + 1)
      _ = min (((j + (k + 1) : Nat) : ℚ) * d / 10) L := by
          have hnat : j + 1 + k = j + (k + 1) := by omega
          rw [hnat]

theorem rampIter_max (L d : ℚ) (hL : 0 ≤ L) (hd : d < 0) :
    ∀ (k j : Nat), rampIter L d k (max ((j : ℚ) * d / 10) (-L)) =
      max (((j + k : Nat) : ℚ) * d / 10) (-L) := by
  intro k
  induction k with
  | zero => intro j; simp [rampIter]
  | succ k ih =>
    intro j
    have haj : (j : ℚ) * d / 10 ≤ 0 := by
      have hj : (0 : ℚ) ≤ (j : ℚ) := Nat.cast_nonneg j
      have hjd : (j : ℚ) * d ≤ 0 := mul_nonpos_of_nonneg_of_nonpos hj hd.le
      linarith
    have hstep : clampUD (max ((j : ℚ) * d / 10) (-L) + d / 10) L =
        max (((j + 1 : Nat) : ℚ) * d / 10) (-L) := by
      rw [clamp_max_step L d ((j : ℚ) * d / 10) hL hd haj]
      congr 1
      push_cast
      ring
    calc rampIter L d (k + 1) (max ((j : ℚ) * d / 10) (-L))
        = rampIter L d k (clampUD (max ((j : ℚ) * d / 10) (-L) + d / 10) L) := rfl
      _ = rampIter L d k (max (((j + 1 : Nat) : ℚ) * d / 10) (-L)) := by rw [hstep]
      _ = max (((j + 1 + k : Nat) : ℚ) * d / 10) (-L) := ih (j + 1)
      _ = max (((j + (k + 1) : Nat) : ℚ) * d / 10) (-L) := by
          have hnat : j + 1 + k = j + (k + 1) := by omega
          rw [hnat]

theorem runSeq_rampIter (cfg : Config) (js : List Joy) (d : ℚ) (b : Int)
    (hin : ∀ joy ∈ js, 0 ≤ cfg.enable_autorun_button ∧
      cfg.enable_autorun_button < (joy.buttons.length : Int))
    (hb : ∀ joy ∈ js, joy.buttons.getD cfg.enable_autorun_button.toNat 0 = b)
    (hok : ∀ joy ∈ js, autorunReadsOK cfg joy = true)
    (hd : ∀ joy ∈ js,
      getVal joy cfg.axis_linear_map (scaleLinFor cfg "autorun") "x" = some d) :
    ∀ s : CState, s.autorun_flag = true → s.autorun_buffer = b →
      ∃ s2, runSeq cfg js s = some s2 ∧
        s2.speed_x_max =
          rampIter (mapGetD cfg.scale_linear_autorun "x") d js.length s.speed_x_max := by
  induction js with
  | nil =>
    intro s _ _
    exact ⟨s, rfl, rfl⟩
  | cons joy js ih =>
    intro s hflag hbuf
    obtain ⟨heab, hr⟩ := hin joy (List.mem_cons_self _ _)
    obtain ⟨t, hstep⟩ := joyCallback_autorun_step cfg s joy d hflag heab hr
      (by rw [hbuf, hb joy (List.mem_cons_self _ _)])
      (hok joy (List.mem_cons_self _ _)) (hd joy (List.mem_cons_self _ _))
    have hrs : runSeq cfg (joy :: js) s =
        runSeq cfg js
          { s with
              speed_x_max :=
                clampUD (s.speed_x_max + d / 10) (mapGetD cfg.scale_linear_autorun "x"),
              sent_disable_msg := false } := by
      simp only [runSeq, hstep]
    obtain ⟨s2, hrun, hsp⟩ := ih (fun j hj => hin j (List.mem_cons_of_mem _ hj))
      (fun j hj => hb j (List.mem_cons_of_mem _ hj))
      (fun j hj => hok j (List.mem_cons_of_mem _ hj))
      (fun j hj => hd j (List.mem_cons_of_mem _ hj))
      { s with
          speed_x_max :=
            clampUD (s.speed_x_max + d / 10) (mapGetD cfg.scale_linear_autorun "x"),
          sent_disable_msg := false } hflag hbuf
    exact ⟨s2, hrs ▸ hrun, by rw [hsp]; rfl⟩

/-- C6: from `ramp_speed_x = 0` with autorun held active, feeding N
consecutive samples whose scaled forward input is the constant `d` yields
`ramp_speed_x = min(N*d/10, x_limit)` for `d > 0` and
`max(N*d/10, -x_limit)` for `d < 0`, with
`x_limit = scale_linear[autorun][x] * 1.0`. -/
theorem C6_ramp_formula (cfg : Config) (st : CState) (js : List Joy) (d : ℚ) (b : Int)
    (hflag : st.autorun_flag = true)
    (hbuf : st.autorun_buffer = b)
    (hs0 : st.speed_x_max = 0)
    (hL : 0 ≤ mapGetD cfg.scale_linear_autorun "x")
    (hin : ∀ joy ∈ js, 0 ≤ cfg.enable_autorun_button ∧
      cfg.enable_autorun_button < (joy.buttons.length : Int))
    (hb : ∀ joy ∈ js, joy.buttons.getD cfg.enable_autorun_button.toNat 0 = b)
    (hok : ∀ joy ∈ js, autorunReadsOK cfg joy = true)
    (hd : ∀ joy ∈ js,
      getVal joy cfg.axis_linear_map (scaleLinFor cfg "autorun") "x" = some d) :
    (0 < d → (runSeq cfg js st).map (fun s => s.speed_x_max) =
      some (min ((js.length : ℚ) * d / 10) (mapGetD cfg.scale_linear_autorun "x"))) ∧
    (d < 0 → (runSeq cfg js st).map (fun s => s.speed_x_max) =
      some (max ((js.length : ℚ) * d / 10) (-(mapGetD cfg.scale_linear_autorun "x")))) := by
  obtain ⟨s2, hrun, hsp⟩ := runSeq_rampIter cfg js d b hin hb hok hd st hflag hbuf
  rw [hrun]
  constructor
  · intro hdp
    simp only [Option.map_some', Option.some_inj]
    rw [hsp, hs0]
    have h0 : (0 : ℚ) =
        min (((0 : Nat) : ℚ) * d / 10) (mapGetD cfg.scale_linear_autorun "x") := by
      rw [show (((0 : Nat) : ℚ) * d / 10) = 0 by push_cast; ring]
      exact (min_eq_left hL).symm
    rw [h0, rampIter_min _ _ hL hdp js.length 0]
    simp
  · intro hdn
    simp only [Option.map_some', Option.some_inj]
    rw [hsp, hs0]
    have h0 : (0 : ℚ) =
        max (((0 : Nat) : ℚ) * d / 10) (-(mapGetD cfg.scale_linear_autorun "x")) := by
      rw [show (((0 : Nat) : ℚ) * d / 10) = 0 by push_cast; ring]
      exact (max_eq_left (by linarith)).symm
    rw [h0, rampIter_max _ _ hL hdn js.length 0]
    simp

/-- C6 witness: ten identical autorun samples with scaled forward input 1
reach exactly the limit `1 = min(10*1/10, 1)`. -/
theorem C6_ramp_formula_witness :
    (runSeq
        { defaultConfig with
            enable_autorun_button := 0
            axis_linear_map := [("x", 1), ("y", -1), ("z", -1)] }
      (List.replicate 10 (Joy.mk [0, 1] [1])) (CState.mk true 1 0 false)).map
        (fun s => s.speed_x_max) =
      some (min (((List.replicate 10 (Joy.mk [0, 1] [1])).length : ℚ) * 1 / 10)
        (mapGetD
          (Config.scale_linear_autorun
            { defaultConfig with
                enable_autorun_button := 0
                axis_linear_map := [("x", 1), ("y", -1), ("z", -1)] })
          "x")) :=
  (C6_ramp_formula
      { defaultConfig with
          enable_autorun_button := 0
          axis_linear_map := [("x", 1), ("y", -1), ("z", -1)] }
      (CState.mk true 1 0 false) (List.replicate 10 (Joy.mk [0, 1] [1])) 1 1
      rfl rfl rfl (by decide) (by decide) (by decide) (by decide)
      (by
        intro j hj
        rw [List.eq_of_mem_replicate hj]
        simp [getVal, readAxis, mapFind, scaleLinFor, defaultConfig] <;> norm_num)).1
    (by norm_num)

/-- C7: every sample processed with the autorun toggle off leaves
`speed_x_max = 0` — whatever it was before — so after a deactivation the
ramp restarts from 0 when autorun is re-engaged. -/
theorem C7_ramp_reset (cfg : Config) (st : CState) (joy : Joy)
    (m : Mode) (st2 : CState) (out : Option Twist)
    (h : joyCallback cfg st joy = some (m, st2, out))
    (hf : st2.autorun_flag = false) :
    st2.speed_x_max = 0 := by
  obtain ⟨hfl, _, hiff, hz, _⟩ := joyCallback_char cfg st joy m st2 out h
  apply hz
  intro hm
  rw [hfl, hiff.mp hm] at hf
  cases hf

/-- C7 witness: a sample that toggles autorun off (value sequence falling
inside one step is not needed — here autorun was off and stays off) resets
the ramp to 0 even from a nonzero prior value. -/
theorem C7_ramp_reset_witness : (CState.mk false 0 0 true).speed_x_max = 0 :=
  C7_ramp_reset defaultConfig (CState.mk false 0 7 false) ⟨[], []⟩
    Mode.disabledM (CState.mk false 0 0 true) (some zeroTwist)
    (by decide) (by decide)

theorem joyCallback_autorun_send (cfg : Config) (st : CState) (joy : Joy)
    (m : Mode) (st2 : CState) (out : Option Twist)
    (h : joyCallback cfg st joy = some (m, st2, out))
    (hf : (edgeStep cfg st joy).autorun_flag = true) :
    ∃ r, sendCmdVelMsg cfg (edgeStep cfg st joy) joy "autorun" = some r ∧
      m = Mode.autorunM ∧ st2 = r.1 ∧ out = some r.2 := by
  simp only [joyCallback] at h
  set st1 := edgeStep cfg st joy with hst1
  rw [if_pos hf] at h
  rw [if_pos (by rw [hf])] at h
  rw [Option.map_eq_some'] at h
  obtain ⟨r, hsend, hr⟩ := h
  simp only [Prod.mk.injEq] at hr
  obtain ⟨hm, hrst, hout⟩ := hr
  exact ⟨r, hsend, hm.symm, hrst.symm, hout.symm⟩

/-- C8: in autorun mode the emitted angular z is the sum of the primary and
adjustment yaw sources clamped to `[-yaw_limit, yaw_limit]` with
`yaw_limit = scale_angular[autorun][yaw] * 1.0` (nonnegative, as the
interval form presupposes): above the limit exactly `yaw_limit` is emitted,
below `-yaw_limit` exactly `-yaw_limit`, and the plain sum in between —
never an unclamped sum. -/
theorem C8_yaw_clamped (cfg : Config) (st : CState) (joy : Joy)
    (st2 : CState) (t : Twist) (yp ya : ℚ)
    (h : joyCallback cfg st joy = some (Mode.autorunM, st2, some t))
    (hyp : getVal joy cfg.axis_angular_map (scaleAngFor cfg "autorun") "yaw" = some yp)
    (hya : getVal joy cfg.axis_angular_adjustment_map (scaleAngFor cfg "autorun") "yaw" =
      some ya)
    (hL : 0 ≤ mapGetD cfg.scale_angular_autorun "yaw") :
    (mapGetD cfg.scale_angular_autorun "yaw" < yp + ya →
      t.angular_z = mapGetD cfg.scale_angular_autorun "yaw") ∧
    (yp + ya < -(mapGetD cfg.scale_angular_autorun "yaw") →
      t.angular_z = -(mapGetD cfg.scale_angular_autorun "yaw")) ∧
    (-(mapGetD cfg.scale_angular_autorun "yaw") ≤ yp + ya →
      yp + ya ≤ mapGetD cfg.scale_angular_autorun "yaw" →
      t.angular_z = yp + ya) := by
  have hf : (edgeStep cfg st joy).autorun_flag = true := by
    obtain ⟨_, _, hiff, _⟩ := joyCallback_char cfg st joy Mode.autorunM st2 (some t) h
    exact hiff.mp rfl
  obtain ⟨r, hsend, _, _, hout⟩ := joyCallback_autorun_send cfg st joy
    Mode.autorunM st2 (some t) h hf
  obtain ⟨sx, syaw, hsx, hsyaw, _, _, _, _, hauto⟩ :=
    sendCmdVelMsg_eq cfg (edgeStep cfg st joy) joy "autorun" r hsend
  obtain ⟨ja, hja, _, _, haz⟩ := hauto hf
  have hyp2 : yp = syaw := by
    rw [hyp] at hsyaw
    exact Option.some.inj hsyaw
  have hya2 : ya = ja := by
    rw [hya] at hja
    exact Option.some.inj hja
  have ht : t = r.2 := Option.some.inj hout
  rw [ht, haz, ← hyp2, ← hya2]
  exact ⟨fun hgt => clampUD_high _ _ hL hgt,
         fun hlt => clampUD_low _ _ hlt,
         fun h1 h2 => clampUD_id _ _ h1 h2⟩

/-- C8 witness: primary yaw 2 plus adjustment yaw 2 exceeds the limit 1; the
emitted angular z is exactly 1. -/
theorem C8_yaw_clamped_witness :
    (Twist.mk 0 0 0 0 0 1).angular_z =
      mapGetD { defaultConfig with enable_autorun_button := 0 }.scale_angular_autorun
        "yaw" :=
  (C8_yaw_clamped { defaultConfig with enable_autorun_button := 0 }
      (CState.mk true 1 0 false) ⟨[0, 0, 2, 2], [1]⟩
      (CState.mk true 1 0 false) (Twist.mk 0 0 0 0 0 1) 2 2
      (by simp [joyCallback, edgeStep, sendCmdVelMsg, getVal, readAxis, readButton,
            mapFind, mapGetD, scaleLinFor, scaleAngFor, turboCond, enableCond, clampUD,
            defaultConfig, zeroTwist] <;> norm_num)
      (by simp [getVal, readAxis, mapFind, scaleAngFor, defaultConfig] <;> norm_num)
      (by simp [getVal, readAxis, mapFind, scaleAngFor, defaultConfig] <;> norm_num)
      (by decide)).1 (by simp [mapGetD, mapFind, defaultConfig] <;> norm_num)

/-- C9: on a disabled sample the all-zero command is emitted exactly when
`sent_disable_msg` was false, which then becomes true, so consecutive
disabled samples emit nothing further; every autorun/turbo/normal sample
emits a command and clears `sent_disable_msg`, re-arming the single stop. -/
theorem C9_stop_once (cfg : Config) (st : CState) (joy : Joy)
    (m : Mode) (st2 : CState) (out : Option Twist)
    (h : joyCallback cfg st joy = some (m, st2, out)) :
    (m = Mode.disabledM →
      st2.sent_disable_msg = true ∧
      (st.sent_disable_msg = false → out = some zeroTwist) ∧
      (st.sent_disable_msg = true → out = none)) ∧
    (m ≠ Mode.disabledM → st2.sent_disable_msg = false ∧ ∃ t, out = some t) := by
  obtain ⟨_, _, _, _, _, _, _, hnd, hd⟩ := joyCallback_char cfg st joy m st2 out h
  exact ⟨hd, hnd⟩

/-- C9 witness: the first disabled sample under the default configuration
emits the zero command and sets `sent_disable_msg`. -/
theorem C9_stop_once_witness :
    (CState.mk false 0 0 true).sent_disable_msg = true ∧
    some zeroTwist = some zeroTwist :=
  And.imp (fun hx => hx.1) (fun hx => hx)
    ⟨(C9_stop_once defaultConfig initState ⟨[], []⟩ Mode.disabledM
        (CState.mk false 0 0 true) (some zeroTwist) (by decide)).1 rfl,
     ((C9_stop_once defaultConfig initState ⟨[], []⟩ Mode.disabledM
        (CState.mk false 0 0 true) (some zeroTwist) (by decide)).1 rfl).2.1 rfl⟩

theorem validateParams_true (ps : List Param) :
    (validateParams ps).successful = true ↔ ∀ p ∈ ps, kindOK p = true := by
  induction ps with
  | nil => simp [validateParams]
  | cons p ps ih =>
    simp only [List.mem_cons, forall_eq_or_imp]
    by_cases hi : p.name ∈ intparams
    · cases hv : p.value with
      | intV v =>
        have he : validateParams (p :: ps) = validateParams ps := by
          simp [validateParams, hi, hv]
        have hk : kindOK p = true := by simp [kindOK, hi, hv]
        rw [he, ih]
        simp [hk]
      | doubleV v =>
        have he : (validateParams (p :: ps)).successful = false := by
          simp [validateParams, hi, hv]
        have hk : kindOK p = false := by simp [kindOK, hi, hv]
        simp [he, hk]
      | boolV v =>
        have he : (validateParams (p :: ps)).successful = false := by
          simp [validateParams, hi, hv]
        have hk : kindOK p = false := by simp [kindOK, hi, hv]
        simp [he, hk]
    · by_cases hdo : p.name ∈ doubleparams
      · cases hv : p.value with
        | doubleV v =>
          have he : validateParams (p :: ps) = validateParams ps := by
            simp [validateParams, hi, hdo, hv]
          have hk : kindOK p = true := by simp [kindOK, hi, hdo, hv]
          rw [he, ih]
          simp [hk]
        | intV v =>
          have he : (validateParams (p :: ps)).successful = false := by
            simp [validateParams, hi, hdo, hv]
          have hk : kindOK p = false := by simp [kindOK, hi, hdo, hv]
          simp [he, hk]
        | boolV v =>
          have he : (validateParams (p :: ps)).successful = false := by
            simp [validateParams, hi, hdo, hv]
          have hk : kindOK p = false := by simp [kindOK, hi, hdo, hv]
          simp [he, hk]
      · by_cases hbo : p.name ∈ boolparams
        · cases hv : p.value with
          | boolV v =>
            have he : validateParams (p :: ps) = validateParams ps := by
              simp [validateParams, hi, hdo, hbo, hv]
            have hk : kindOK p = true := by simp [kindOK, hi, hdo, hbo, hv]
            rw [he, ih]
            simp [hk]
          | intV v =>
            have he : (validateParams (p :: ps)).successful = false := by
              simp [validateParams, hi, hdo, hbo, hv]
            have hk : kindOK p = false := by simp [kindOK, hi, hdo, hbo, hv]
            simp [he, hk]
          | doubleV v =>
            have he : (validateParams (p :: ps)).successful = false := by
              simp [validateParams, hi, hdo, hbo, hv]
            have hk : kindOK p = false := by simp [kindOK, hi, hdo, hbo, hv]
            simp [he, hk]
        · have he : validateParams (p :: ps) = validateParams ps := by
            cases hv : p.value <;> simp [validateParams, hi, hdo, hbo, hv]
          have hk : kindOK p = true := by simp [kindOK, hi, hdo, hbo]
          rw [he, ih]
          simp [hk]

theorem validateParams_false (ps : List Param)
    (h : (validateParams ps).successful = false) :
    ∃ p ∈ ps, kindOK p = false ∧ (validateParams ps).reason = mismatchReason p := by
  induction ps with
  | nil => simp [validateParams] at h
  | cons p ps ih =>
    by_cases hi : p.name ∈ intparams
    · cases hv : p.value with
      | intV v =>
        have he : validateParams (p :: ps) = validateParams ps := by
          simp [validateParams, hi, hv]
        rw [he] at h ⊢
        obtain ⟨q, hq, hk, hr⟩ := ih h
        exact ⟨q, List.mem_cons_of_mem _ hq, hk, hr⟩
      | doubleV v =>
        have he : validateParams (p :: ps) =
            ⟨false, "Only integer values can be set for " ++ p.name ++ "."⟩ := by
          simp [validateParams, hi, hv]
        refine ⟨p, List.mem_cons_self _ _, by simp [kindOK, hi, hv], ?_⟩
        rw [he]
        simp [mismatchReason, hi]
      | boolV v =>
        have he : validateParams (p :: ps) =
            ⟨false, "Only integer values can be set for " ++ p.name ++ "."⟩ := by
          simp [validateParams, hi, hv]
        refine ⟨p, List.mem_cons_self _ _, by simp [kindOK, hi, hv], ?_⟩
        rw [he]
        simp [mismatchReason, hi]
    · by_cases hdo : p.name ∈ doubleparams
      · cases hv : p.value with
        | doubleV v =>
          have he : validateParams (p :: ps) = validateParams ps := by
            simp [validateParams, hi, hdo, hv]
          rw [he] at h ⊢
          obtain ⟨q, hq, hk, hr⟩ := ih h
          exact ⟨q, List.mem_cons_of_mem _ hq, hk, hr⟩
        | intV v =>
          have he : validateParams (p :: ps) =
              ⟨false, "Only double values can be set for " ++ p.name ++ "."⟩ := by
            simp [validateParams, hi, hdo, hv]
          refine ⟨p, List.mem_cons_self _ _, by simp [kindOK, hi, hdo, hv], ?_⟩
          rw [he]
          simp [mismatchReason, hi, hdo]
        | boolV v =>
          have he : validateParams (p :: ps) =
              ⟨false, "Only double values can be set for " ++ p.name ++ "."⟩ := by
            simp [validateParams, hi, hdo, hv]
          refine ⟨p, List.mem_cons_self _ _, by simp [kindOK, hi, hdo, hv], ?_⟩
          rw [he]
          simp [mismatchReason, hi, hdo]
      · by_cases hbo : p.name ∈ boolparams
        · cases hv : p.value with
          | boolV v =>
            have he : validateParams (p :: ps) = validateParams ps := by
              simp [validateParams, hi, hdo, hbo, hv]
            rw [he] at h ⊢
            obtain ⟨q, hq, hk, hr⟩ := ih h
            exact ⟨q, List.mem_cons_of_mem _ hq, hk, hr⟩
          | intV v =>
            have he : validateParams (p :: ps) =
                ⟨false, "Only boolean values can be set for " ++ p.name ++ "."⟩ := by
              simp [validateParams, hi, hdo, hbo, hv]
            refine ⟨p, List.mem_cons_self _ _, by simp [kindOK, hi, hdo, hbo, hv], ?_⟩
            rw [he]
            simp [mismatchReason, hi, hdo, hbo]
          | doubleV v =>
            have he : validateParams (p :: ps) =
                ⟨false, "Only boolean values can be set for " ++ p.name ++ "."⟩ := by
              simp [validateParams, hi, hdo, hbo, hv]
            refine ⟨p, List.mem_cons_self _ _, by simp [kindOK, hi, hdo, hbo, hv], ?_⟩
            rw [he]
            simp [mismatchReason, hi, hdo, hbo]
        · have he : validateParams (p :: ps) = validateParams ps := by
            cases hv : p.value <;> simp [validateParams, hi, hdo, hbo, hv]
          rw [he] at h ⊢
          obtain ⟨q, hq, hk, hr⟩ := ih h
          exact ⟨q, List.mem_cons_of_mem _ hq, hk, hr⟩

/-- C10: a parameter batch is accepted exactly when every recognized
parameter carries the expected value kind; an accepted batch is applied in
full, and a rejected batch leaves the configuration untouched with a reason
naming the offending field. -/
theorem C10_param_batch (cfg : Config) (ps : List Param) :
    ((param_callback cfg ps).2.successful = true ↔ ∀ p ∈ ps, kindOK p = true) ∧
    ((param_callback cfg ps).2.successful = true →
      (param_callback cfg ps).1 = applyParams cfg ps) ∧
    ((param_callback cfg ps).2.successful = false →
      (param_callback cfg ps).1 = cfg ∧
      ∃ p ∈ ps, kindOK p = false ∧
        (param_callback cfg ps).2.reason = mismatchReason p) := by
  simp only [param_callback]
  by_cases hs : (validateParams ps).successful = true
  · rw [if_pos hs]
    refine ⟨validateParams_true ps, fun _ => rfl, ?_⟩
    intro hfalse
    rw [hs] at hfalse
    cases hfalse
  · have hs2 : (validateParams ps).successful = false := by
      cases hE : (validateParams ps).successful
      · rfl
      · exact absurd hE hs
    rw [if_neg hs]
    refine ⟨?_, ?_, ?_⟩
    · constructor
      · intro hT
        rw [hs2] at hT
        cases hT
      · intro hall
        exact absurd ((validateParams_true ps).mpr hall) hs
    · intro hT
      rw [hs2] at hT
      cases hT
    · intro _
      exact ⟨rfl, validateParams_false ps hs2⟩

/-- C10 witness: a batch assigning a double to the integer parameter
`enable_button` is rejected and leaves the configuration unmodified. -/
theorem C10_param_batch_witness :
    (param_callback defaultConfig [Param.mk "enable_button" (PValue.doubleV 2)]).1 =
      defaultConfig :=
  ((C10_param_batch defaultConfig [Param.mk "enable_button" (PValue.doubleV 2)]).2.2
    (by decide)).1

end TeleopTwistJoy
